import Mathlib

/-!
Shallow embedding of the chess rules engine (MaciAC/chess_rust) in Lean 4.

Conventions of the embedding:
* Rust `usize` coordinates are `Nat`, `i32` coordinates are `Int`.
* A board (`Vec<Option<Piece>>`) is a `List (Option Piece)`; the standard board
  has length 64 and is indexed by `row * 8 + col`.
* Fallible operations return `Option _`; a `none` result models a Rust panic
  (out-of-bounds `Vec` indexing or `Option::unwrap` on `None`).
* `v as usize` on a possibly negative `i32` value is modelled by `usizeOfI32`
  (two's-complement wrap into 64 bits), `n as i32` on a `usize` by `i32OfUsize`
  (truncation to the low 32 bits, interpreted signed).
-/

namespace ChessRust

inductive PieceColor
  | White
  | Black
deriving DecidableEq, Repr

inductive PieceType
  | King
  | Queen
  | Rook
  | Bishop
  | Knight
  | Pawn
deriving DecidableEq, Repr

structure Piece where
  piece_type : PieceType
  color : PieceColor
deriving DecidableEq, Repr

inductive GameStatus
  | InProgress
  | Check
  | Checkmate
  | Stalemate
deriving DecidableEq, Repr

structure GameState where
  current_turn : PieceColor
  status : GameStatus
  last_move : Option ((Nat × Nat) × (Nat × Nat))
  white_can_castle_kingside : Bool
  white_can_castle_queenside : Bool
  black_can_castle_kingside : Bool
  black_can_castle_queenside : Bool
  move_history : List String
deriving DecidableEq, Repr

/-- The board representation handed over to `GameState` methods:
`Vec<Option<Piece>>` of length 64, indexed by `row * 8 + col`. -/
abbrev Board := List (Option Piece)

/-- `v as usize` on an `i32` value: two's-complement wrap into 64 bits. -/
def usizeOfI32 (v : Int) : Nat := (v % (2 : Int) ^ 64).toNat

/-- `n as i32` on a `usize` value: truncate to the low 32 bits, signed. -/
def i32OfUsize (n : Nat) : Int :=
  if n % 2 ^ 32 < 2 ^ 31 then ((n % 2 ^ 32 : Nat) : Int)
  else ((n % 2 ^ 32 : Nat) : Int) - 2 ^ 32

/-- Rust `board[i]` read: `some` cell when in bounds, `none` = index panic. -/
def readIdx (b : Board) (i : Nat) : Option (Option Piece) := b[i]?

/-- Rust `board[i] = v` write: succeeds when in bounds, `none` = index panic. -/
def writeIdx (b : Board) (i : Nat) (v : Option Piece) : Option Board :=
  if i < b.length then some (b.set i v) else none

/-- `for i in -7..8 { if i == 0 { continue; } ... }`: the slider offsets,
in ascending order, zero skipped (src/pieces/piece.rs). -/
def sliderOffsets : List Int :=
  ((List.range 15).map (fun n => (n : Int) - 7)).filter (fun i => i ≠ 0)

/-- `Piece::get_raw_moves` (src/pieces/piece.rs lines 18-82): all
theoretically possible moves of the piece from `fm`, ignoring board state.
Coordinates are `i32` pairs `(row, col)`. -/
def Piece.get_raw_moves (p : Piece) (fm : Int × Int) : List (Int × Int) :=
  match p.piece_type with
  | PieceType.Pawn =>
    let forward : Int := if p.color = PieceColor.White then -1 else 1
    [(fm.1 + forward, fm.2)]
      ++ (if (fm.1 = 6 ∧ p.color = PieceColor.White) ∨ (fm.1 = 1 ∧ p.color = PieceColor.Black)
          then [(fm.1 + forward * 2, fm.2)] else [])
      ++ [(fm.1 + forward, fm.2 - 1), (fm.1 + forward, fm.2 + 1)]
  | PieceType.Knight =>
    ([(-2, -1), (-2, 1), (-1, -2), (-1, 2), (1, -2), (1, 2), (2, -1), (2, 1)] : List (Int × Int)).map
      (fun d => (fm.1 + d.1, fm.2 + d.2))
  | PieceType.Bishop =>
    sliderOffsets.flatMap (fun i => [(fm.1 + i, fm.2 + i), (fm.1 + i, fm.2 - i)])
  | PieceType.Rook =>
    sliderOffsets.flatMap (fun i => [(fm.1 + i, fm.2), (fm.1, fm.2 + i)])
  | PieceType.Queen =>
    sliderOffsets.flatMap
      (fun i => [(fm.1 + i, fm.2 + i), (fm.1 + i, fm.2 - i), (fm.1 + i, fm.2), (fm.1, fm.2 + i)])
  | PieceType.King =>
    ([-1, 0, 1] : List Int).flatMap (fun dx =>
      ([-1, 0, 1] : List Int).filterMap (fun dy =>
        if dx = 0 ∧ dy = 0 then none else some (fm.1 + dx, fm.2 + dy)))

/-- The piece content of `ChessBoard` (src/board/chess_board.rs): the `piece`
fields of the 64 `ChessSquare`s; the `is_light` flag plays no role in move
logic. `ChessBoard::new` guarantees length 64. -/
structure ChessBoard where
  squares : List (Option Piece)
deriving DecidableEq, Repr

/-- `ChessBoard::get_piece_at` (src/board/chess_board.rs lines 56-61):
`None` for an index ≥ 64, otherwise the cell. Indexing `self.squares[idx]` is
in bounds by the length-64 invariant of `ChessBoard::new`; we use the total
`getD` accordingly. -/
def ChessBoard.get_piece_at (cb : ChessBoard) (idx : Nat) : Option Piece :=
  if 64 ≤ idx then none else (cb.squares.getD idx none)

/-- Modelled from the spec: `ChessBoard::is_path_clear` is called from
`Piece::get_valid_moves` (src/pieces/piece.rs line 146) but its definition is
missing from the provided sources. Spec §4.2: "walks the straight line
(horizontal, vertical, or diagonal only; undefined/unused for non-collinear
pairs) from the square after `from` up to but excluding the target, returning false
as soon as an occupied square is found, true if the line is traversed without
obstruction or the target equals the origin". The fuel bounds the walk; it is never exhausted
for the collinear pairs the spec defines the walk on. This is the walk
itself. -/
def pathClearWalk (cb : ChessBoard) (toSq : Int × Int) (step_y step_x : Int) :
    Nat → Int → Int → Bool
  | 0, _, _ => true
  | fuel + 1, y, x =>
    if (y, x) = (toSq.1, toSq.2) then true
    else if (cb.get_piece_at (usizeOfI32 (y * 8 + x))).isSome then false
    else pathClearWalk cb toSq step_y step_x fuel (y + step_y) (x + step_x)

/-- Modelled from the spec: `ChessBoard::is_path_clear` (see `pathClearWalk`):
chooses the unit step toward `toSq` and walks from the square after `fm`. -/
def ChessBoard.is_path_clear (cb : ChessBoard) (fm toSq : Int × Int) : Bool :=
  let step_y : Int := if toSq.1 = fm.1 then 0 else if fm.1 < toSq.1 then 1 else -1
  let step_x : Int := if toSq.2 = fm.2 then 0 else if fm.2 < toSq.2 then 1 else -1
  pathClearWalk cb toSq step_y step_x 16 (fm.1 + step_y) (fm.2 + step_x)

/-- `Piece::get_valid_moves` (src/pieces/piece.rs lines 85-149): raw moves
filtered by board bounds and occupancy rules. -/
def Piece.get_valid_moves (p : Piece) (fm : Int × Int) (board : ChessBoard) : List (Int × Int) :=
  (p.get_raw_moves fm).filter (fun toSq =>
    if toSq.1 < 0 ∨ 8 ≤ toSq.1 ∨ toSq.2 < 0 ∨ 8 ≤ toSq.2 then false
    else
      let to_idx : Nat := (toSq.1 * 8 + toSq.2).toNat
      if p.piece_type = PieceType.Pawn then
        let dx : Int := |toSq.2 - fm.2|
        let dy : Int := toSq.1 - fm.1
        let forward : Int := if p.color = PieceColor.White then -1 else 1
        if dx = 0 then
          if |dy| = 1 then (board.get_piece_at to_idx).isNone
          else if dy = forward * 2 then
            let intermediate : Int × Int := (fm.1 + forward, fm.2)
            let intermediate_idx : Nat := (intermediate.1 * 8 + intermediate.2).toNat
            (board.get_piece_at to_idx).isNone && (board.get_piece_at intermediate_idx).isNone &&
              decide ((fm.1 = 6 ∧ p.color = PieceColor.White) ∨ (fm.1 = 1 ∧ p.color = PieceColor.Black))
          else false
        else if dx = 1 ∧ |dy| = 1 then
          match board.get_piece_at to_idx with
          | some target_piece => decide (target_piece.color ≠ p.color)
          | none => false
        else false
      else
        -- friendly piece at the target rejects; then knights jump, others walk
        if (match board.get_piece_at to_idx with
            | some target_piece => decide (target_piece.color = p.color)
            | none => false) then false
        else if p.piece_type = PieceType.Knight then true
        else board.is_path_clear fm toSq)

/-! ## GameState (src/game/game_state.rs) -/

/-- The path-scanning `while` loop of `GameState::is_valid_move`
(lines 125-134) and `GameState::is_square_attacked` (lines 256-267):
steps `(x, y)` by `(step_x, step_y)` until it reaches `(tx, ty)`; an occupied
intermediate square yields `some false`, reaching the target `some true`.
An out-of-bounds index (negative coordinates wrap via `as usize`) is a Rust
panic, hence `none`.  The fuel replaces Rust's termination-by-panic: for the
aligned walks that actually occur (the target is in the piece's raw-move set)
the target is reached within 7 steps, and for misaligned walks the Rust loop
always panics before 200 steps. -/
def pathStep (b : Board) (step_x step_y tx ty : Int) : Nat → Int → Int → Option Bool
  | 0, _, _ => none
  | fuel + 1, x, y =>
    if (x, y) = (tx, ty) then some true
    else
      match readIdx b (usizeOfI32 y * 8 + usizeOfI32 x) with
      | none => none
      | some cell =>
        if cell.isSome then some false
        else pathStep b step_x step_y tx ty fuel (x + step_x) (y + step_y)

/-- Sets up the path walk: `step = d / d.abs()` is the sign of `d` for
`d ≠ 0`, else `0`; the walk starts one step after `from_coords`. -/
def pathClear (b : Board) (from_coords to_coords : Int × Int) : Option Bool :=
  let dx : Int := to_coords.2 - from_coords.2
  let dy : Int := to_coords.1 - from_coords.1
  let step_x : Int := if dx = 0 then 0 else if 0 < dx then 1 else -1
  let step_y : Int := if dy = 0 then 0 else if 0 < dy then 1 else -1
  pathStep b step_x step_y to_coords.2 to_coords.1 200
    (from_coords.2 + step_x) (from_coords.1 + step_y)

/-- `for row in 0..8 { for col in 0..8 { ... } }` in row-major order. -/
def squaresRC : List (Nat × Nat) :=
  (List.range 8).flatMap (fun row => (List.range 8).map (fun col => (row, col)))

/-- Body of the `GameState::is_square_attacked` loop (lines 223-272) for one
occupied square `rc` holding an enemy `piece`: `some true` = `pos` is attacked
from there (`return true`), `some false` = it is not (`continue`). -/
def attackCheck (pos : Nat × Nat) (b : Board) (rc : Nat × Nat) (piece : Piece) : Option Bool :=
  let from_coords : Int × Int := ((rc.1 : Int), (rc.2 : Int))
  let to_coords : Int × Int := (i32OfUsize pos.1, i32OfUsize pos.2)
  let raw_moves := piece.get_raw_moves from_coords
  if !(raw_moves.contains to_coords) then some false
  else if piece.piece_type = PieceType.Pawn then
    let dx : Int := |to_coords.2 - from_coords.2|
    let dy : Int := to_coords.1 - from_coords.1
    let forward : Int := if piece.color = PieceColor.White then -1 else 1
    if dx ≠ 1 ∨ dy ≠ forward then some false else some true
  else if piece.piece_type = PieceType.Knight then some true
  else pathClear b from_coords to_coords

/-- The square scan of `GameState::is_square_attacked` (lines 221-276). -/
def attackScan (pos : Nat × Nat) (defending_color : PieceColor) (b : Board) :
    List (Nat × Nat) → Option Bool
  | [] => some false
  | rc :: rest =>
    match readIdx b (rc.1 * 8 + rc.2) with
    | none => none
    | some cell =>
      match cell with
      | some piece =>
        if piece.color ≠ defending_color then
          match attackCheck pos b rc piece with
          | none => none
          | some true => some true
          | some false => attackScan pos defending_color b rest
        else attackScan pos defending_color b rest
      | none => attackScan pos defending_color b rest

/-- `GameState::is_square_attacked` (lines 220-277). -/
def GameState.is_square_attacked (_s : GameState) (pos : Nat × Nat)
    (defending_color : PieceColor) (b : Board) : Option Bool :=
  attackScan pos defending_color b squaresRC

/-- `GameState::is_en_passant_move` (lines 191-218). NOTE the unwrap of
`board[last_to]` (line 203): a recorded last move onto a now-empty square is
a panic (`none`). -/
def GameState.is_en_passant_move (s : GameState) (fm toSq : Nat × Nat) (b : Board) :
    Option Bool := do
  let cell ← readIdx b (fm.1 * 8 + fm.2)
  match cell with
  | none => return false
  | some piece =>
    if piece.piece_type ≠ PieceType.Pawn then return false
    match s.last_move with
    | some (_, last_to) =>
      let last_piece ← (← readIdx b (last_to.1 * 8 + last_to.2))
      if last_piece.piece_type = PieceType.Pawn then
        let forward : Int := if piece.color = PieceColor.White then -1 else 1
        let expected_row : Int := (fm.1 : Int) + forward
        if (toSq.1 : Int) = expected_row ∧ |(toSq.2 : Int) - (fm.2 : Int)| = 1 then
          if last_to.1 = fm.1 ∧ last_to.2 = toSq.2 then
            return true
        return false
      else
        return false
    | none => return false

/-- `GameState::is_castling_move` (lines 146-154). -/
def GameState.is_castling_move (_s : GameState) (fm toSq : Nat × Nat) (b : Board) :
    Option Bool := do
  let piece ← (← readIdx b (fm.1 * 8 + fm.2))
  if piece.piece_type ≠ PieceType.King then return false
  return decide (fm.1 = toSq.1 ∧ |(toSq.2 : Int) - (fm.2 : Int)| = 2)

/-- `GameState::is_valid_castling` (lines 156-189). Dead code in practice: a
two-square king shift is never in the king's raw-move set, so
`is_valid_move` rejects it before `is_castling_move` can detect it; embedded
faithfully all the same (note the possible wrap of
`(from.1 as i32 + col_offset * direction) as usize` at line 182). -/
def GameState.is_valid_castling (s : GameState) (fm toSq : Nat × Nat) (b : Board) :
    Option Bool := do
  let piece ← (← readIdx b (fm.1 * 8 + fm.2))
  if piece.color = PieceColor.White ∧ toSq.2 = 6 ∧ s.white_can_castle_kingside = false then
    return false
  if piece.color = PieceColor.White ∧ toSq.2 = 2 ∧ s.white_can_castle_queenside = false then
    return false
  if piece.color = PieceColor.Black ∧ toSq.2 = 6 ∧ s.black_can_castle_kingside = false then
    return false
  if piece.color = PieceColor.Black ∧ toSq.2 = 2 ∧ s.black_can_castle_queenside = false then
    return false
  let row := fm.1
  let path_cols : List Nat := if toSq.2 = 6 then [5, 6] else [1, 2, 3]
  for col in path_cols do
    if (← readIdx b (row * 8 + col)).isSome then return false
  let direction : Int := if toSq.2 = 6 then 1 else -1
  for col_offset in ([0, 1, 2] : List Int) do
    let check_pos : Nat × Nat := (row, usizeOfI32 ((fm.2 : Int) + col_offset * direction))
    if (← GameState.is_square_attacked s check_pos piece.color b) then return false
  return true

/-- One row of the king-location scans (lines 288-296 and 434-441): scan the
given columns of `row`; `break` on the first king of `kc`. -/
def rowKingScan (tb : Board) (kc : PieceColor) (row : Nat) : List Nat → Option (Option (Nat × Nat))
  | [] => some none
  | c :: rest =>
    match readIdx tb (row * 8 + c) with
    | none => none
    | some cell =>
      match cell with
      | some piece =>
        if piece.piece_type = PieceType.King ∧ piece.color = kc then some (some (row, c))
        else rowKingScan tb kc row rest
      | none => rowKingScan tb kc row rest

/-- The king scan of `would_be_in_check` (lines 287-297): the inner `break`
leaves only the column loop, so the row loop keeps scanning and a king found
in a later row overwrites the accumulator. -/
def kingScanWBC (tb : Board) (kc : PieceColor) :
    List Nat → Option (Nat × Nat) → Option (Option (Nat × Nat))
  | [], acc => some acc
  | r :: rest, acc =>
    match rowKingScan tb kc r (List.range 8) with
    | none => none
    | some (some p) => kingScanWBC tb kc rest (some p)
    | some none => kingScanWBC tb kc rest acc

/-- The king scan of `update_game_status` (lines 433-446): here
`king_pos.is_some()` breaks the outer loop too, so the first king found wins. -/
def kingScanUGS (b : Board) (kc : PieceColor) : List Nat → Option (Option (Nat × Nat))
  | [] => some none
  | r :: rest =>
    match rowKingScan b kc r (List.range 8) with
    | none => none
    | some (some p) => some (some p)
    | some none => kingScanUGS b kc rest

/-- `GameState::would_be_in_check` (lines 279-304): simulate the move on a
scratch board, locate the moving side's king there, and test attack; a board
without that king yields `false`. -/
def GameState.would_be_in_check (s : GameState) (fm toSq : Nat × Nat) (b : Board) :
    Option Bool :=
  -- `temp_board[from].take()` reads the cell and clears it; the `Option.bind`
  -- on `moving_piece` below is the `.unwrap()` of line 286
  Option.bind (readIdx b (fm.1 * 8 + fm.2)) fun moving_piece =>
  Option.bind (writeIdx b (fm.1 * 8 + fm.2) none) fun temp1 =>
  Option.bind (writeIdx temp1 (toSq.1 * 8 + toSq.2) moving_piece) fun temp_board =>
  Option.bind moving_piece fun mp =>
  Option.bind (kingScanWBC temp_board mp.color (List.range 8) none) fun king_pos =>
  match king_pos with
  | some kp => GameState.is_square_attacked s kp mp.color temp_board
  | none => some false

/-- `GameState::is_valid_move` (lines 39-144). -/
def GameState.is_valid_move (s : GameState) (fm toSq : Nat × Nat) (b : Board) :
    Option Bool := do
  let cell ← readIdx b (fm.1 * 8 + fm.2)
  match cell with
  | none => return false
  | some piece =>
    if piece.color ≠ s.current_turn then return false
    let from_coords : Int × Int := ((fm.1 : Int), (fm.2 : Int))
    let to_coords : Int × Int := ((toSq.1 : Int), (toSq.2 : Int))
    let raw_moves := piece.get_raw_moves from_coords
    if !(raw_moves.contains to_coords) then return false
    if piece.piece_type = PieceType.King then
      let atk ← GameState.is_square_attacked s (toSq.1, toSq.2) piece.color b
      if atk then return false
      let cast ← s.is_castling_move fm toSq b
      if cast then
        return (← s.is_valid_castling fm toSq b)
      match ← readIdx b (toSq.1 * 8 + toSq.2) with
      | some target =>
        if target.color = piece.color then return false
      | none => pure ()
    else if piece.piece_type = PieceType.Pawn then
      let dx : Int := |(toSq.2 : Int) - (fm.2 : Int)|
      let dy : Int := (toSq.1 : Int) - (fm.1 : Int)
      let forward : Int := if piece.color = PieceColor.White then -1 else 1
      if dx = 0 then
        if (← readIdx b (toSq.1 * 8 + toSq.2)).isSome then return false
        if |dy| = 2 then
          let intermediate_row : Nat := usizeOfI32 ((fm.1 : Int) + forward)
          if (← readIdx b (intermediate_row * 8 + fm.2)).isSome then return false
      else if dx = 1 then
        let ep ← s.is_en_passant_move fm toSq b
        if !ep then
          match ← readIdx b (toSq.1 * 8 + toSq.2) with
          | some target =>
            if target.color = piece.color then return false
          | none => return false
    else
      match ← readIdx b (toSq.1 * 8 + toSq.2) with
      | some target =>
        if target.color = piece.color then return false
      | none => pure ()
      if piece.piece_type ≠ PieceType.Knight then
        let clear ← pathClear b from_coords to_coords
        if !clear then return false
    let chk ← s.would_be_in_check fm toSq b
    if chk then return false
    return true

/-- `GameState::get_square_name` (lines 306-310): file letter `a`..`h` from
the column, rank digit `8 - row`. -/
def get_square_name (pos : Nat × Nat) : String :=
  String.singleton (Char.ofNat (97 + pos.2)) ++ toString (8 - pos.1)

/-- `GameState::get_piece_symbol` (lines 312-321). -/
def get_piece_symbol (piece : Piece) : String :=
  match piece.piece_type with
  | PieceType.King => "K"
  | PieceType.Queen => "Q"
  | PieceType.Rook => "R"
  | PieceType.Bishop => "B"
  | PieceType.Knight => "N"
  | PieceType.Pawn => ""

/-- The castling-rights update of `make_move` (lines 344-365): flags are only
cleared, based on the moving piece's type and origin. -/
def updateCastlingRights (s : GameState) (piece : Piece) (fm : Nat × Nat) : GameState :=
  match piece.piece_type with
  | PieceType.King =>
    if piece.color = PieceColor.White then
      { s with white_can_castle_kingside := false, white_can_castle_queenside := false }
    else
      { s with black_can_castle_kingside := false, black_can_castle_queenside := false }
  | PieceType.Rook =>
    match fm with
    | (7, 0) => { s with white_can_castle_queenside := false }
    | (7, 7) => { s with white_can_castle_kingside := false }
    | (0, 0) => { s with black_can_castle_queenside := false }
    | (0, 7) => { s with black_can_castle_kingside := false }
    | _ => s
  | _ => s

/-- The history update of `make_move` (lines 407-417): a White move pushes a
new entry numbered `len / 2 + 1`; a Black move replaces the last entry by
itself plus a space and the move text (nothing happens on empty history). -/
def recordHistory (s : GameState) (color : PieceColor) (move_text : String) : GameState :=
  if color = PieceColor.White then
    { s with move_history :=
        s.move_history ++ [toString (s.move_history.length / 2 + 1) ++ ". " ++ move_text] }
  else
    match s.move_history.getLast? with
    | some last => { s with move_history := s.move_history.dropLast ++ [last ++ " " ++ move_text] }
    | none => s

/-- Lines 401-405: append `+` on Check, `#` on Checkmate. -/
def appendStatusMark (st : GameStatus) (t : String) : String :=
  match st with
  | GameStatus.Check => t ++ "+"
  | GameStatus.Checkmate => t ++ "#"
  | _ => t

/-- The rook relocation of a castling move (lines 333-337):
`board[row*8+rook_to_col] = board[row*8+rook_from_col].take()`. -/
def castleRookMove (b : Board) (fm toSq : Nat × Nat) : Option Board :=
  let row := fm.1
  let rook_from_col : Nat := if toSq.2 = 6 then 7 else 0
  let rook_to_col : Nat := if toSq.2 = 6 then 5 else 3
  match readIdx b (row * 8 + rook_from_col) with
  | none => none
  | some rook =>
    match writeIdx b (row * 8 + rook_from_col) none with
    | none => none
    | some b1 => writeIdx b1 (row * 8 + rook_to_col) rook

/-- Line 368: `board[to...] = board[from...].take()`. -/
def movePiece (b : Board) (fm toSq : Nat × Nat) : Option Board :=
  match readIdx b (fm.1 * 8 + fm.2) with
  | none => none
  | some moved =>
    match writeIdx b (fm.1 * 8 + fm.2) none with
    | none => none
    | some b1 => writeIdx b1 (toSq.1 * 8 + toSq.2) moved

/-- The inner target loop of the legal-move scans in `update_game_status`
(lines 462-470 and 491-499): try every target square until a valid move is
found. -/
def tryAllTargets (s : GameState) (fm : Nat × Nat) (b : Board) : List (Nat × Nat) → Option Bool
  | [] => some false
  | t :: rest =>
    match s.is_valid_move fm t b with
    | none => none
    | some true => some true
    | some false => tryAllTargets s fm b rest

/-- The outer piece loop of the legal-move scans in `update_game_status`
(lines 455-474 and 485-504): for every piece of the current turn, try all
targets; `break 'outer` on the first valid move. -/
def legalMoveScan (s : GameState) (b : Board) : List (Nat × Nat) → Option Bool
  | [] => some false
  | fm :: rest =>
    match readIdx b (fm.1 * 8 + fm.2) with
    | none => none
    | some cell =>
      match cell with
      | some piece =>
        if piece.color = s.current_turn then
          match tryAllTargets s fm b squaresRC with
          | none => none
          | some true => some true
          | some false => legalMoveScan s b rest
        else legalMoveScan s b rest
      | none => legalMoveScan s b rest

/-- `GameState::update_game_status` (lines 431-511): locate the king of
`current_turn` (`.unwrap()`ed — "King should always exist"), test check, and
scan for a legal move; the status is written into `self`. -/
def GameState.update_game_status (s : GameState) (b : Board) : Option GameState :=
  match kingScanUGS b s.current_turn (List.range 8) with
  | none => none
  | some none => none
  | some (some king_pos) =>
    match GameState.is_square_attacked s king_pos s.current_turn b with
    | none => none
    | some in_check =>
      if ¬ in_check then
        match legalMoveScan s b squaresRC with
        | none => none
        | some has_legal_moves =>
          some { s with status :=
            if has_legal_moves then GameStatus.InProgress else GameStatus.Stalemate }
      else
        match legalMoveScan s b squaresRC with
        | none => none
        | some has_legal_moves =>
          some { s with status :=
            if has_legal_moves then GameStatus.Check else GameStatus.Checkmate }

/-- Lines 328-428 of `GameState::make_move`: everything after validation
succeeded.  Returns the updated game state, the updated board, and the `true`
result. -/
def GameState.apply_valid_move (s : GameState) (fm toSq : Nat × Nat) (b : Board) :
    Option (GameState × Board × Bool) :=
  -- line 328: `board[from...].unwrap()` = indexed read plus unwrap
  Option.bind (readIdx b (fm.1 * 8 + fm.2)) fun cell =>
  Option.bind cell fun piece =>
  -- line 329, with Rust's short-circuit `||`
  Option.bind (readIdx b (toSq.1 * 8 + toSq.2)) fun tgt =>
  Option.bind (if tgt.isSome then some true else s.is_en_passant_move fm toSq b) fun is_capture =>
  Option.bind (s.is_castling_move fm toSq b) fun is_castling =>
  Option.bind (if is_castling then castleRookMove b fm toSq else some b) fun b1 =>
  -- line 340: en passant is re-tested on the (possibly) updated board
  Option.bind (s.is_en_passant_move fm toSq b1) fun ep =>
  Option.bind (if ep then writeIdx b1 (fm.1 * 8 + toSq.2) none else some b1) fun b2 =>
  Option.bind (movePiece (b2) fm toSq) fun b3 =>
  let s1 := updateCastlingRights s piece fm
  let move_text : String :=
    if is_castling then (if toSq.2 = 6 then "O-O" else "O-O-O")
    else get_piece_symbol piece ++ get_square_name fm ++
      (if is_capture then "x" else "") ++ get_square_name toSq
  let promo : Prop := piece.piece_type = PieceType.Pawn ∧
    ((piece.color = PieceColor.White ∧ toSq.1 = 0) ∨
     (piece.color = PieceColor.Black ∧ toSq.1 = 7))
  Option.bind (if promo then
                writeIdx b3 (toSq.1 * 8 + toSq.2) (some ⟨PieceType.Queen, piece.color⟩)
               else some b3) fun b4 =>
  let move_text1 := if promo then move_text ++ "=Q" else move_text
  Option.bind (s1.update_game_status b4) fun s2 =>
  let move_text2 := appendStatusMark s2.status move_text1
  let s3 := recordHistory s2 piece.color move_text2
  some ({ s3 with
          last_move := some (fm, toSq),
          current_turn :=
            if s3.current_turn = PieceColor.White then PieceColor.Black
            else PieceColor.White },
        b4, true)

/-- `GameState::make_move` (lines 323-429): validate, then apply.  The
returned triple carries the final `self`, the final board, and the boolean
result; `none` is a panic. -/
def GameState.make_move (s : GameState) (fm toSq : Nat × Nat) (b : Board) :
    Option (GameState × Board × Bool) :=
  match s.is_valid_move fm toSq b with
  | none => none
  | some false => some (s, b, false)
  | some true => s.apply_valid_move fm toSq b

/-- `GameState::new` (lines 26-37). -/
def GameState.new : GameState :=
  { current_turn := PieceColor.White
    status := GameStatus.InProgress
    last_move := none
    white_can_castle_kingside := true
    white_can_castle_queenside := true
    black_can_castle_kingside := true
    black_can_castle_queenside := true
    move_history := [] }

/-- The back-rank piece types of `ChessBoard::new`
(src/board/chess_board.rs lines 18-26); columns range over `0..8`, so the
final catch-all (`unreachable!()` in the source) is never consulted. -/
def backRankType (col : Nat) : PieceType :=
  if col = 0 ∨ col = 7 then PieceType.Rook
  else if col = 1 ∨ col = 6 then PieceType.Knight
  else if col = 2 ∨ col = 5 then PieceType.Bishop
  else if col = 3 then PieceType.Queen
  else PieceType.King

/-- The piece initially at `(row, col)` (src/board/chess_board.rs
lines 17-49). -/
def initialPieceAt (row col : Nat) : Option Piece :=
  if row = 0 then some ⟨backRankType col, PieceColor.Black⟩
  else if row = 1 then some ⟨PieceType.Pawn, PieceColor.Black⟩
  else if row = 6 then some ⟨PieceType.Pawn, PieceColor.White⟩
  else if row = 7 then some ⟨backRankType col, PieceColor.White⟩
  else none

/-- The standard starting board, as the `Vec<Option<Piece>>` projection of
`ChessBoard::new` that `ChessBoard::make_move` hands to `GameState`
(src/board/chess_board.rs lines 95-98). -/
def initialBoard : Board := squaresRC.map (fun rc => initialPieceAt rc.1 rc.2)

/-! ## Concrete positions used to settle individual claims -/

/-- A board from a position reachable by `1. e4 a6 2. e5 d5` reduced to its
four relevant pieces: Black has just pushed a pawn two squares to `(3,3)`
(d5), beside the White pawn on `(3,4)` (e5). -/
def epPanicBoard : Board := squaresRC.map (fun rc =>
  if rc = (3, 3) then some ⟨PieceType.Pawn, PieceColor.Black⟩
  else if rc = (3, 4) then some ⟨PieceType.Pawn, PieceColor.White⟩
  else if rc = (7, 4) then some ⟨PieceType.King, PieceColor.White⟩
  else if rc = (0, 4) then some ⟨PieceType.King, PieceColor.Black⟩
  else none)

/-- White to move after Black's two-square pawn push `(1,3) → (3,3)`. -/
def epPanicState : GameState := { GameState.new with last_move := some ((1, 3), (3, 3)) }

/-- Black pawn on `(3,2)` that just advanced a SINGLE square from `(2,2)`,
landing beside the White pawn on `(3,1)`. -/
def onePushBoard : Board := squaresRC.map (fun rc =>
  if rc = (3, 1) then some ⟨PieceType.Pawn, PieceColor.White⟩
  else if rc = (3, 2) then some ⟨PieceType.Pawn, PieceColor.Black⟩
  else none)

/-- White to move after Black's one-square pawn advance `(2,2) → (3,2)`. -/
def onePushState : GameState := { GameState.new with last_move := some ((2, 2), (3, 2)) }

/-- White queen on `(1,7)` about to capture the Black rook sitting on its
home corner `(0,7)`; both kings present. -/
def rookCaptureBoard : Board := squaresRC.map (fun rc =>
  if rc = (0, 4) then some ⟨PieceType.King, PieceColor.Black⟩
  else if rc = (0, 7) then some ⟨PieceType.Rook, PieceColor.Black⟩
  else if rc = (7, 4) then some ⟨PieceType.King, PieceColor.White⟩
  else if rc = (1, 7) then some ⟨PieceType.Queen, PieceColor.White⟩
  else none)

/-- A small endgame position: both kings plus a White rook on `(4,0)`. -/
def rookEndgameBoard : Board := squaresRC.map (fun rc =>
  if rc = (7, 4) then some ⟨PieceType.King, PieceColor.White⟩
  else if rc = (0, 4) then some ⟨PieceType.King, PieceColor.Black⟩
  else if rc = (4, 0) then some ⟨PieceType.Rook, PieceColor.White⟩
  else none)

/-- The initial state with the white kingside flag already lost. -/
def lostRightState : GameState := { GameState.new with white_can_castle_kingside := false }

/-- A board holding a single White rook and no king at all. -/
def noKingBoard : Board := squaresRC.map (fun rc =>
  if rc = (0, 0) then some ⟨PieceType.Rook, PieceColor.White⟩ else none)

/-- An empty `ChessBoard`. -/
def emptyCB : ChessBoard := ⟨List.replicate 64 none⟩

/-- "Some `(from, to)` pair with a piece of the current turn at `from`
satisfies `is_valid_move`" — the notion of a legal move existing that
`update_game_status` scans for. -/
def HasLegal (s : GameState) (b : Board) : Prop :=
  ∃ fm t : Nat × Nat, fm.1 < 8 ∧ fm.2 < 8 ∧ t.1 < 8 ∧ t.2 < 8 ∧
    (∃ piece, readIdx b (fm.1 * 8 + fm.2) = some (some piece) ∧
      piece.color = s.current_turn) ∧
    GameState.is_valid_move s fm t b = some true

/-! ## Helper lemmas -/

theorem readIdx_eq (b : Board) (i : Nat) : readIdx b i = b[i]? := rfl

theorem writeIdx_eq_some {b : Board} {i : Nat} (v : Option Piece) (h : i < b.length) :
    writeIdx b i v = some (b.set i v) := by
  simp [writeIdx, h]

theorem lt_length_of_readIdx_eq_some {b : Board} {i : Nat} {c : Option Piece}
    (h : readIdx b i = some c) : i < b.length := by
  rw [readIdx_eq] at h
  exact (List.getElem?_eq_some_iff.mp h).1

@[simp] theorem recordHistory_current_turn (s : GameState) (c : PieceColor) (t : String) :
    (recordHistory s c t).current_turn = s.current_turn := by
  unfold recordHistory
  repeat' split
  all_goals rfl

@[simp] theorem recordHistory_white_ks (s : GameState) (c : PieceColor) (t : String) :
    (recordHistory s c t).white_can_castle_kingside = s.white_can_castle_kingside := by
  unfold recordHistory
  repeat' split
  all_goals rfl

@[simp] theorem recordHistory_white_qs (s : GameState) (c : PieceColor) (t : String) :
    (recordHistory s c t).white_can_castle_queenside = s.white_can_castle_queenside := by
  unfold recordHistory
  repeat' split
  all_goals rfl

@[simp] theorem recordHistory_black_ks (s : GameState) (c : PieceColor) (t : String) :
    (recordHistory s c t).black_can_castle_kingside = s.black_can_castle_kingside := by
  unfold recordHistory
  repeat' split
  all_goals rfl

@[simp] theorem recordHistory_black_qs (s : GameState) (c : PieceColor) (t : String) :
    (recordHistory s c t).black_can_castle_queenside = s.black_can_castle_queenside := by
  unfold recordHistory
  repeat' split
  all_goals rfl

@[simp] theorem updateCastlingRights_current_turn (s : GameState) (p : Piece) (fm : Nat × Nat) :
    (updateCastlingRights s p fm).current_turn = s.current_turn := by
  unfold updateCastlingRights
  repeat' split
  all_goals rfl

theorem updateCastlingRights_mono (s : GameState) (p : Piece) (fm : Nat × Nat) :
    ((updateCastlingRights s p fm).white_can_castle_kingside = true →
      s.white_can_castle_kingside = true) ∧
    ((updateCastlingRights s p fm).white_can_castle_queenside = true →
      s.white_can_castle_queenside = true) ∧
    ((updateCastlingRights s p fm).black_can_castle_kingside = true →
      s.black_can_castle_kingside = true) ∧
    ((updateCastlingRights s p fm).black_can_castle_queenside = true →
      s.black_can_castle_queenside = true) := by
  unfold updateCastlingRights
  repeat' split
  all_goals simp

theorem update_game_status_shape {s : GameState} {b : Board} {s2 : GameState}
    (h : GameState.update_game_status s b = some s2) :
    ∃ st, s2 = { s with status := st } := by
  unfold GameState.update_game_status at h
  repeat' split at h
  all_goals first
    | exact Option.noConfusion h
    | (injection h with h; exact ⟨_, h.symm⟩)

theorem apply_valid_move_inv {s : GameState} {fm toSq : Nat × Nat} {b : Board}
    {s' : GameState} {b' : Board} {r : Bool}
    (h : GameState.apply_valid_move s fm toSq b = some (s', b', r)) :
    r = true ∧
    ∃ piece, readIdx b (fm.1 * 8 + fm.2) = some (some piece) ∧
      s'.current_turn =
        (if s.current_turn = PieceColor.White then PieceColor.Black else PieceColor.White) ∧
      s'.white_can_castle_kingside = (updateCastlingRights s piece fm).white_can_castle_kingside ∧
      s'.white_can_castle_queenside = (updateCastlingRights s piece fm).white_can_castle_queenside ∧
      s'.black_can_castle_kingside = (updateCastlingRights s piece fm).black_can_castle_kingside ∧
      s'.black_can_castle_queenside = (updateCastlingRights s piece fm).black_can_castle_queenside
        := by
  unfold GameState.apply_valid_move at h
  simp only [Option.bind_eq_some] at h
  obtain ⟨cell, hcell, piece, hpiece, tgt, htgt, cap, hcap, cast, hcast, b1, hb1,
    ep, hep, b2, hb2, b3, hb3, b4, hb4, s2, hs2, hfin⟩ := h
  obtain ⟨st, hst⟩ := update_game_status_shape hs2
  simp only [Option.some.injEq, Prod.mk.injEq] at hfin
  obtain ⟨hs', hb', hr⟩ := hfin
  subst hst
  refine ⟨hr.symm, piece, ?_, ?_, ?_, ?_, ?_, ?_⟩
  · rw [hcell, hpiece]
  all_goals rw [← hs']; simp

theorem make_move_inv {s : GameState} {fm toSq : Nat × Nat} {b : Board}
    {s' : GameState} {b' : Board} {r : Bool}
    (h : GameState.make_move s fm toSq b = some (s', b', r)) :
    (r = false ∧ s' = s ∧ b' = b) ∨
    (r = true ∧
      s'.current_turn =
        (if s.current_turn = PieceColor.White then PieceColor.Black else PieceColor.White) ∧
      (s'.white_can_castle_kingside = true → s.white_can_castle_kingside = true) ∧
      (s'.white_can_castle_queenside = true → s.white_can_castle_queenside = true) ∧
      (s'.black_can_castle_kingside = true → s.black_can_castle_kingside = true) ∧
      (s'.black_can_castle_queenside = true → s.black_can_castle_queenside = true)) := by
  unfold GameState.make_move at h
  split at h
  · exact Option.noConfusion h
  · left
    simp only [Option.some.injEq, Prod.mk.injEq] at h
    exact ⟨h.2.2.symm, h.1.symm, h.2.1.symm⟩
  · right
    obtain ⟨hr, piece, hpiece, hturn, h1, h2, h3, h4⟩ := apply_valid_move_inv h
    obtain ⟨m1, m2, m3, m4⟩ := updateCastlingRights_mono s piece fm
    exact ⟨hr, hturn, fun hh => m1 (h1 ▸ hh), fun hh => m2 (h2 ▸ hh),
      fun hh => m3 (h3 ▸ hh), fun hh => m4 (h4 ▸ hh)⟩

theorem mem_squaresRC {rc : Nat × Nat} : rc ∈ squaresRC ↔ rc.1 < 8 ∧ rc.2 < 8 := by
  obtain ⟨r, c⟩ := rc
  simp only [squaresRC, List.mem_flatMap, List.mem_map, List.mem_range, Prod.mk.injEq]
  constructor
  · rintro ⟨a, ha, cc, hcc, rfl, rfl⟩
    exact ⟨ha, hcc⟩
  · rintro ⟨hr, hc⟩
    exact ⟨r, hr, c, hc, rfl, rfl⟩

theorem tryAllTargets_some_true {s : GameState} {fm : Nat × Nat} {b : Board}
    {l : List (Nat × Nat)} (h : tryAllTargets s fm b l = some true) :
    ∃ t ∈ l, GameState.is_valid_move s fm t b = some true := by
  induction l with
  | nil => simp [tryAllTargets] at h
  | cons t rest ih =>
    cases hv : GameState.is_valid_move s fm t b with
    | none => rw [tryAllTargets, hv] at h; exact Option.noConfusion h
    | some v =>
      cases v with
      | true => exact ⟨t, List.mem_cons_self t rest, hv⟩
      | false =>
        simp only [tryAllTargets, hv] at h
        obtain ⟨u, hu, huv⟩ := ih h
        exact ⟨u, List.mem_cons_of_mem t hu, huv⟩

theorem tryAllTargets_some_false {s : GameState} {fm : Nat × Nat} {b : Board}
    {l : List (Nat × Nat)} (h : tryAllTargets s fm b l = some false) :
    ∀ t ∈ l, GameState.is_valid_move s fm t b = some false := by
  induction l with
  | nil => simp
  | cons t rest ih =>
    intro u hu
    cases hv : GameState.is_valid_move s fm t b with
    | none => rw [tryAllTargets, hv] at h; exact Option.noConfusion h
    | some v =>
      cases v with
      | true => rw [tryAllTargets, hv] at h; simp at h
      | false =>
        simp only [tryAllTargets, hv] at h
        rcases List.mem_cons.mp hu with rfl | hu'
        · exact hv
        · exact ih h u hu'

theorem legalMoveScan_some_true {s : GameState} {b : Board} {l : List (Nat × Nat)}
    (h : legalMoveScan s b l = some true) :
    ∃ fm ∈ l, ∃ piece, readIdx b (fm.1 * 8 + fm.2) = some (some piece) ∧
      piece.color = s.current_turn ∧
      ∃ t ∈ squaresRC, GameState.is_valid_move s fm t b = some true := by
  induction l with
  | nil => simp [legalMoveScan] at h
  | cons fm rest ih =>
    cases hr : readIdx b (fm.1 * 8 + fm.2) with
    | none => rw [legalMoveScan, hr] at h; exact Option.noConfusion h
    | some cell =>
      cases cell with
      | none =>
        simp only [legalMoveScan, hr] at h
        obtain ⟨u, hu, rest'⟩ := ih h
        exact ⟨u, List.mem_cons_of_mem fm hu, rest'⟩
      | some piece =>
        by_cases hc : piece.color = s.current_turn
        · cases htt : tryAllTargets s fm b squaresRC with
          | none => simp only [legalMoveScan, hr, hc, if_pos] at h; rw [htt] at h; exact Option.noConfusion h
          | some v =>
            cases v with
            | true =>
              exact ⟨fm, List.mem_cons_self fm rest, piece, hr, hc,
                tryAllTargets_some_true htt⟩
            | false =>
              simp only [legalMoveScan, hr, hc, if_pos] at h
              rw [htt] at h
              obtain ⟨u, hu, rest'⟩ := ih h
              exact ⟨u, List.mem_cons_of_mem fm hu, rest'⟩
        · simp only [legalMoveScan, hr, hc, if_neg, not_false_iff] at h
          obtain ⟨u, hu, rest'⟩ := ih h
          exact ⟨u, List.mem_cons_of_mem fm hu, rest'⟩

theorem legalMoveScan_some_false {s : GameState} {b : Board} {l : List (Nat × Nat)}
    (h : legalMoveScan s b l = some false) :
    ∀ fm ∈ l, ∀ piece, readIdx b (fm.1 * 8 + fm.2) = some (some piece) →
      piece.color = s.current_turn →
      ∀ t ∈ squaresRC, GameState.is_valid_move s fm t b = some false := by
  induction l with
  | nil => simp
  | cons fm rest ih =>
    intro u hu piece hpc hcol t ht
    rcases List.mem_cons.mp hu with rfl | hu'
    · rw [legalMoveScan, hpc] at h
      simp only [hcol, if_pos] at h
      cases htt : tryAllTargets s u b squaresRC with
      | none => rw [htt] at h; exact Option.noConfusion h
      | some v =>
        cases v with
        | true => rw [htt] at h; simp at h
        | false => exact tryAllTargets_some_false htt t ht
    · cases hr : readIdx b (fm.1 * 8 + fm.2) with
      | none => rw [legalMoveScan, hr] at h; exact Option.noConfusion h
      | some cell =>
        cases cell with
        | none =>
          simp only [legalMoveScan, hr] at h
          exact ih h u hu' piece hpc hcol t ht
        | some piece' =>
          by_cases hc : piece'.color = s.current_turn
          · cases htt : tryAllTargets s fm b squaresRC with
            | none =>
              simp only [legalMoveScan, hr, hc, if_pos] at h
              rw [htt] at h; exact Option.noConfusion h
            | some v =>
              cases v with
              | true =>
                simp only [legalMoveScan, hr, hc, if_pos] at h
                rw [htt] at h; simp at h
              | false =>
                simp only [legalMoveScan, hr, hc, if_pos] at h
                rw [htt] at h
                exact ih h u hu' piece hpc hcol t ht
          · simp only [legalMoveScan, hr, hc, if_neg, not_false_iff] at h
            exact ih h u hu' piece hpc hcol t ht

theorem legalMoveScan_iff {s : GameState} {b : Board} {has : Bool}
    (h : legalMoveScan s b squaresRC = some has) : has = true ↔ HasLegal s b := by
  constructor
  · rintro rfl
    obtain ⟨fm, hfm, piece, hpc, hcol, t, ht, hv⟩ := legalMoveScan_some_true h
    obtain ⟨h1, h2⟩ := mem_squaresRC.mp hfm
    obtain ⟨h3, h4⟩ := mem_squaresRC.mp ht
    exact ⟨fm, t, h1, h2, h3, h4, ⟨piece, hpc, hcol⟩, hv⟩
  · rintro ⟨fm, t, h1, h2, h3, h4, ⟨piece, hpc, hcol⟩, hv⟩
    cases has with
    | true => rfl
    | false =>
      have := legalMoveScan_some_false h fm (mem_squaresRC.mpr ⟨h1, h2⟩) piece hpc hcol t
        (mem_squaresRC.mpr ⟨h3, h4⟩)
      rw [hv] at this
      simp at this

theorem rowKingScan_none {tb : Board} {kc : PieceColor} {row : Nat} {cols : List Nat}
    (h : ∀ c ∈ cols, ∃ cell, readIdx tb (row * 8 + c) = some cell ∧
      ∀ pc, cell = some pc → ¬(pc.piece_type = PieceType.King ∧ pc.color = kc)) :
    rowKingScan tb kc row cols = some none := by
  induction cols with
  | nil => rfl
  | cons c rest ih =>
    obtain ⟨cell, hread, hcell⟩ := h c (List.mem_cons_self c rest)
    have ihr := ih (fun c' hc' => h c' (List.mem_cons_of_mem c hc'))
    cases cell with
    | none => simp only [rowKingScan, hread]; exact ihr
    | some pc =>
      simp only [rowKingScan, hread]
      rw [if_neg (hcell pc rfl)]
      exact ihr

theorem kingScanWBC_none {tb : Board} {kc : PieceColor} {rows : List Nat}
    (h : ∀ r ∈ rows, rowKingScan tb kc r (List.range 8) = some none) :
    ∀ acc, kingScanWBC tb kc rows acc = some acc := by
  induction rows with
  | nil => intro acc; rfl
  | cons r rest ih =>
    intro acc
    have ihr := ih (fun r' hr' => h r' (List.mem_cons_of_mem r hr'))
    simp only [kingScanWBC, h r (List.mem_cons_self r rest)]
    exact ihr acc

/-- Claim C10: for every board of length 64 that contains a piece at `from`
but no king of that piece's color, `would_be_in_check` returns `false` — the
self-check simulation passes vacuously, so the absence of the moving side's
king is neither an error nor a reason to reject the move. -/
theorem claim_C10_no_king_vacuously_safe (s : GameState) (fm toSq : Nat × Nat) (b : Board)
    (p : Piece)
    (hlen : b.length = 64) (ht1 : toSq.1 < 8) (ht2 : toSq.2 < 8)
    (hp : readIdx b (fm.1 * 8 + fm.2) = some (some p))
    (hk : ∀ cell ∈ b, ∀ pc, cell = some pc → pc.piece_type = PieceType.King →
      pc.color ≠ p.color) :
    GameState.would_be_in_check s fm toSq b = some false := by
  have hfm_lt : fm.1 * 8 + fm.2 < b.length := lt_length_of_readIdx_eq_some hp
  have hto_lt : toSq.1 * 8 + toSq.2 < (b.set (fm.1 * 8 + fm.2) none).length := by
    rw [List.length_set, hlen]; omega
  have hpmem : (some p) ∈ b := by
    rw [readIdx_eq] at hp
    obtain ⟨hlt, hget⟩ := List.getElem?_eq_some_iff.mp hp
    exact hget ▸ List.getElem_mem hlt
  have hnotking : ¬(p.piece_type = PieceType.King ∧ p.color = p.color) := by
    rintro ⟨hkt, -⟩
    exact hk (some p) hpmem p rfl hkt rfl
  -- the scratch board after the simulated move
  set tb : Board := (b.set (fm.1 * 8 + fm.2) none).set (toSq.1 * 8 + toSq.2) (some p) with htb
  have htblen : tb.length = 64 := by rw [htb]; simp [hlen]
  have hcellok : ∀ cell ∈ tb, ∀ pc, cell = some pc →
      ¬(pc.piece_type = PieceType.King ∧ pc.color = p.color) := by
    intro cell hcmem pc hceq
    rcases List.mem_or_eq_of_mem_set hcmem with hc1 | rfl
    · rcases List.mem_or_eq_of_mem_set hc1 with hc2 | rfl
      · rintro ⟨hkt, hcol⟩
        exact hk cell hc2 pc hceq hkt hcol
      · exact Option.noConfusion hceq
    · injection hceq with hpe
      exact hpe ▸ hnotking
  have hrows : ∀ r ∈ List.range 8, rowKingScan tb p.color r (List.range 8) = some none := by
    intro r hr
    apply rowKingScan_none
    intro c hc
    have hidx : r * 8 + c < tb.length := by
      rw [htblen]
      have := List.mem_range.mp hr
      have := List.mem_range.mp hc
      omega
    refine ⟨tb[r * 8 + c], ?_, ?_⟩
    · rw [readIdx_eq]
      exact List.getElem?_eq_getElem hidx
    · intro pc hceq
      exact hcellok _ (List.getElem_mem hidx) pc hceq
  have hscan := kingScanWBC_none hrows none
  unfold GameState.would_be_in_check
  rw [hp]
  simp only [Option.some_bind]
  rw [writeIdx_eq_some none hfm_lt]
  simp only [Option.some_bind]
  rw [writeIdx_eq_some (some p) hto_lt]
  simp only [Option.some_bind, ← htb]
  rw [hscan]
  rfl

/-- Claim C7: for every board on which the king scan locates the king `kp` of
the side to move, `update_game_status` writes the status of that side:
Checkmate when `kp` is attacked and no `(from, to)` pair with a piece of the
current turn at `from` satisfies `is_valid_move`, Check when attacked and such
a pair exists, Stalemate when unattacked with no such pair, InProgress
otherwise. -/
theorem claim_C7_status_characterization
    (s : GameState) (b : Board) (kp : Nat × Nat) (chk : Bool) (st : GameStatus)
    (hk : kingScanUGS b s.current_turn (List.range 8) = some (some kp))
    (hc : GameState.is_square_attacked s kp s.current_turn b = some chk)
    (hs : (GameState.update_game_status s b).map GameState.status = some st) :
    (st = GameStatus.Checkmate ↔ chk = true ∧ ¬ HasLegal s b) ∧
    (st = GameStatus.Check ↔ chk = true ∧ HasLegal s b) ∧
    (st = GameStatus.Stalemate ↔ chk = false ∧ ¬ HasLegal s b) ∧
    (st = GameStatus.InProgress ↔ chk = false ∧ HasLegal s b) := by
  unfold GameState.update_game_status at hs
  simp only [hk] at hs
  simp only [hc] at hs
  cases hscan : legalMoveScan s b squaresRC with
  | none =>
    by_cases hchk : chk = true
    · rw [if_neg (by simp [hchk])] at hs
      simp only [hscan, Option.map_none'] at hs
      exact Option.noConfusion hs
    · rw [if_pos (by simpa using hchk)] at hs
      simp only [hscan, Option.map_none'] at hs
      exact Option.noConfusion hs
  | some has =>
    have hiff := legalMoveScan_iff hscan
    by_cases hchk : chk = true
    · subst hchk
      rw [if_neg (by simp)] at hs
      simp only [hscan, Option.map_some'] at hs
      replace hs : st = if has = true then GameStatus.Check else GameStatus.Checkmate :=
        (Option.some.inj hs).symm
      cases has with
      | true =>
        have hHL : HasLegal s b := hiff.mp rfl
        subst hs
        simp [hHL]
      | false =>
        have hNH : ¬ HasLegal s b := fun hl => by simpa using hiff.mpr hl
        subst hs
        simp [hNH]
    · have hchk' : chk = false := by
        cases chk
        · rfl
        · exact absurd rfl hchk
      subst hchk'
      rw [if_pos (by simp)] at hs
      simp only [hscan, Option.map_some'] at hs
      replace hs : st = if has = true then GameStatus.InProgress else GameStatus.Stalemate :=
        (Option.some.inj hs).symm
      cases has with
      | true =>
        have hHL : HasLegal s b := hiff.mp rfl
        subst hs
        simp [hHL]
      | false =>
        have hNH : ¬ HasLegal s b := fun hl => by simpa using hiff.mpr hl
        subst hs
        simp [hNH]


/-! ## The remaining claims -/

/-- Claim C1: for every GameState, board of length 64, and squares `from`,
`to` with components in 0..8, if `make_move` returns `false` then the entire
game state (turn, castling rights, last_move, status, history) and the board
are exactly as before the call: rejection has zero side effects. -/
theorem claim_C1_rejected_move_no_side_effects
    (s : GameState) (fm toSq : Nat × Nat) (b : Board) (s' : GameState) (b' : Board)
    (hlen : b.length = 64) (hf1 : fm.1 < 8) (hf2 : fm.2 < 8)
    (ht1 : toSq.1 < 8) (ht2 : toSq.2 < 8)
    (h : GameState.make_move s fm toSq b = some (s', b', false)) :
    s' = s ∧ b' = b := by
  rcases make_move_inv h with ⟨-, hs, hb⟩ | ⟨hr, -⟩
  · exact ⟨hs, hb⟩
  · exact absurd hr (by simp)

/-- Witness for C1: from the initial position, the Black rook move
`(0,0) → (5,5)` on White's turn is rejected with no side effects. -/
theorem claim_C1_witness :
    GameState.make_move GameState.new (0, 0) (5, 5) initialBoard =
      some (GameState.new, initialBoard, false) ∧
    (GameState.new = GameState.new ∧ initialBoard = initialBoard) :=
  ⟨rfl, claim_C1_rejected_move_no_side_effects GameState.new (0, 0) (5, 5) initialBoard
    GameState.new initialBoard rfl (by decide) (by decide) (by decide) (by decide) rfl⟩

/-- Claim C2: whenever `make_move` returns `true` the turn flips to the
opposite color, and whenever it returns `false` the turn is unchanged. -/
theorem claim_C2_turn_alternation
    (s : GameState) (fm toSq : Nat × Nat) (b : Board) (ct : PieceColor) (r : Bool)
    (h : (GameState.make_move s fm toSq b).map (fun x => (x.1.current_turn, x.2.2)) =
      some (ct, r)) :
    (r = true → ct = (if s.current_turn = PieceColor.White then PieceColor.Black
                      else PieceColor.White)) ∧
    (r = false → ct = s.current_turn) := by
  cases hm : GameState.make_move s fm toSq b with
  | none => rw [hm] at h; exact Option.noConfusion h
  | some x =>
    obtain ⟨s', b', rr⟩ := x
    rw [hm] at h
    simp only [Option.map_some', Option.some.injEq, Prod.mk.injEq] at h
    obtain ⟨hct, hr⟩ := h
    rcases make_move_inv hm with ⟨hrf, hss, -⟩ | ⟨hrt, hturn, -⟩
    · constructor
      · intro hq
        rw [← hr, hrf] at hq
        exact absurd hq (by simp)
      · intro hq
        rw [← hct, hss]
    · constructor
      · intro hq
        rw [← hct, hturn]
      · intro hq
        rw [← hr, hrt] at hq
        exact absurd hq (by simp)

set_option maxRecDepth 16000 in
/-- Witness for C2: the accepted rook move `(4,0) → (4,1)` flips the turn
from White to Black. -/
theorem claim_C2_witness :
    (true = true → PieceColor.Black =
      (if GameState.new.current_turn = PieceColor.White then PieceColor.Black
       else PieceColor.White)) ∧
    (true = false → PieceColor.Black = GameState.new.current_turn) :=
  claim_C2_turn_alternation GameState.new (4, 0) (4, 1) rookEndgameBoard
    PieceColor.Black true (by decide)

/-- Claim C3: across every `make_move` call (accepted or rejected), each of
the four castling-rights flags is monotone non-increasing: a flag that is
`false` before the call is `false` after it, and no call ever raises a flag
back to `true`. -/
theorem claim_C3_castling_rights_monotone
    (s : GameState) (fm toSq : Nat × Nat) (b : Board) (wk wq bk bq : Bool)
    (h : (GameState.make_move s fm toSq b).map (fun x =>
        (x.1.white_can_castle_kingside, x.1.white_can_castle_queenside,
         x.1.black_can_castle_kingside, x.1.black_can_castle_queenside)) =
      some (wk, wq, bk, bq)) :
    (s.white_can_castle_kingside = false → wk = false) ∧
    (s.white_can_castle_queenside = false → wq = false) ∧
    (s.black_can_castle_kingside = false → bk = false) ∧
    (s.black_can_castle_queenside = false → bq = false) := by
  cases hm : GameState.make_move s fm toSq b with
  | none => rw [hm] at h; exact Option.noConfusion h
  | some x =>
    obtain ⟨s', b', rr⟩ := x
    rw [hm] at h
    simp only [Option.map_some', Option.some.injEq, Prod.mk.injEq] at h
    obtain ⟨h1, h2, h3, h4⟩ := h
    rcases make_move_inv hm with ⟨-, hss, -⟩ | ⟨-, -, m1, m2, m3, m4⟩
    · subst hss
      exact ⟨fun hh => h1 ▸ hh, fun hh => h2 ▸ hh, fun hh => h3 ▸ hh, fun hh => h4 ▸ hh⟩
    · refine ⟨fun hh => ?_, fun hh => ?_, fun hh => ?_, fun hh => ?_⟩
      · cases hwk : wk with
        | false => rfl
        | true => exact absurd (m1 (h1.trans hwk)) (by simp [hh])
      · cases hwq : wq with
        | false => rfl
        | true => exact absurd (m2 (h2.trans hwq)) (by simp [hh])
      · cases hbk : bk with
        | false => rfl
        | true => exact absurd (m3 (h3.trans hbk)) (by simp [hh])
      · cases hbq : bq with
        | false => rfl
        | true => exact absurd (m4 (h4.trans hbq)) (by simp [hh])

set_option maxRecDepth 16000 in
/-- Witness for C3: moving the rook `(4,0) → (4,1)` in a state whose white
kingside flag is already `false` leaves that flag `false`. -/
theorem claim_C3_witness :
    (lostRightState.white_can_castle_kingside = false → false = false) ∧
    (lostRightState.white_can_castle_queenside = false → true = false) ∧
    (lostRightState.black_can_castle_kingside = false → true = false) ∧
    (lostRightState.black_can_castle_queenside = false → true = false) :=
  claim_C3_castling_rights_monotone lostRightState (4, 0) (4, 1) rookEndgameBoard
    false true true true (by decide)

/-- Claim C4, counterexample: `get_raw_moves` does NOT clip to the board —
the White knight on `(0,0)` returns the off-board candidate `(-2,-1)`. -/
theorem claim_C4_counterexample :
    (-2, -1) ∈ (Piece.mk PieceType.Knight PieceColor.White).get_raw_moves (0, 0) ∧
    ((-2 : Int) < 0 ∨ (8 : Int) ≤ -2 ∨ (-1 : Int) < 0 ∨ (8 : Int) ≤ -1) := by
  decide

/-- Claim C4, amended: `get_raw_moves` may return out-of-range candidates;
the clipping to the 0..8 range happens in `get_valid_moves`, every square of
which has row and column within 0..8. -/
theorem claim_C4_valid_moves_in_range
    (p : Piece) (fm : Int × Int) (cb : ChessBoard) (toSq : Int × Int)
    (h : toSq ∈ p.get_valid_moves fm cb) :
    0 ≤ toSq.1 ∧ toSq.1 < 8 ∧ 0 ≤ toSq.2 ∧ toSq.2 < 8 := by
  unfold Piece.get_valid_moves at h
  obtain ⟨-, hpred⟩ := List.mem_filter.mp h
  by_cases hcond : toSq.1 < 0 ∨ 8 ≤ toSq.1 ∨ toSq.2 < 0 ∨ 8 ≤ toSq.2
  · rw [if_pos hcond] at hpred
    exact Bool.noConfusion hpred
  · push_neg at hcond
    omega

/-- Witness for C4 (amended): the rook move `(0,0) → (0,1)` on an empty board
is produced by `get_valid_moves` and lies in range. -/
theorem claim_C4_witness :
    ((0, 1) : Int × Int) ∈
      (Piece.mk PieceType.Rook PieceColor.White).get_valid_moves (0, 0) emptyCB ∧
    ((0 : Int) ≤ 0 ∧ (0 : Int) < 8 ∧ (0 : Int) ≤ 1 ∧ (1 : Int) < 8) :=
  ⟨by decide, claim_C4_valid_moves_in_range (Piece.mk PieceType.Rook PieceColor.White)
    (0, 0) emptyCB (0, 1) (by decide)⟩

/-- Claim C5 (code bug): `is_en_passant_move` accepts a capture although the
recorded last move `(2,2) → (3,2)` was a ONE-square pawn advance, not the
two-rank advance its own comment ("a pawn moving two squares") and the spec
require: the function never inspects the last move's origin. -/
theorem claim_C5_en_passant_after_single_push :
    onePushState.last_move = some ((2, 2), (3, 2)) ∧
    readIdx onePushBoard (3 * 8 + 2) = some (some ⟨PieceType.Pawn, PieceColor.Black⟩) ∧
    readIdx onePushBoard (3 * 8 + 1) = some (some ⟨PieceType.Pawn, PieceColor.White⟩) ∧
    GameState.is_en_passant_move onePushState (3, 1) (2, 2) onePushBoard = some true :=
  ⟨rfl, by decide, by decide, by decide⟩

/-- Claim C6 (code bug): capturing the Black rook on its home corner `(0,7)`
leaves `black_can_castle_kingside` equal to `true` — `make_move` only clears
rights keyed on the MOVING piece, never on a captured rook. -/
theorem claim_C6_capture_keeps_castling_flag :
    readIdx rookCaptureBoard (0 * 8 + 7) = some (some ⟨PieceType.Rook, PieceColor.Black⟩) ∧
    GameState.new.black_can_castle_kingside = true ∧
    (GameState.make_move GameState.new (1, 7) (0, 7) rookCaptureBoard).map
      (fun r => (r.2.2, r.1.black_can_castle_kingside, readIdx r.2.1 (0 * 8 + 7))) =
      some (true, true, some (some ⟨PieceType.Queen, PieceColor.White⟩)) :=
  ⟨by decide, rfl, by decide⟩

/-- Witness for C7: in the rook endgame position with White to move, the
status resolves to InProgress — the king at `(7,4)` is not attacked and a
legal move exists. -/
theorem claim_C7_witness :
    (GameStatus.InProgress = GameStatus.Checkmate ↔
      false = true ∧ ¬ HasLegal GameState.new rookEndgameBoard) ∧
    (GameStatus.InProgress = GameStatus.Check ↔
      false = true ∧ HasLegal GameState.new rookEndgameBoard) ∧
    (GameStatus.InProgress = GameStatus.Stalemate ↔
      false = false ∧ ¬ HasLegal GameState.new rookEndgameBoard) ∧
    (GameStatus.InProgress = GameStatus.InProgress ↔
      false = false ∧ HasLegal GameState.new rookEndgameBoard) :=
  claim_C7_status_characterization GameState.new rookEndgameBoard (7, 4) false
    GameStatus.InProgress (by decide) (by decide) (by decide)

/-- Claim C8, counterexample: from the initial position, `e2 → e4` is
accepted and the turn flips, but the recorded history entry is NOT
`"1. e4"`. -/
theorem claim_C8_counterexample :
    ¬ ((GameState.make_move GameState.new (6, 4) (4, 4) initialBoard).map
        (fun r => (r.2.2, r.1.current_turn, r.1.move_history)) =
      some (true, PieceColor.Black, ["1. e4"])) := by
  decide

/-- Claim C8, amended: from the initial position, `make_move (6,4) (4,4)`
returns `true`, the turn becomes Black, and the history is the one-element
list `["1. e2e4"]` (origin-plus-destination notation, not SAN). -/
theorem claim_C8_first_move_recorded :
    (GameState.make_move GameState.new (6, 4) (4, 4) initialBoard).map
      (fun r => (r.2.2, r.1.current_turn, r.1.move_history)) =
      some (true, PieceColor.Black, ["1. e2e4"]) := by
  decide

/-- Claim C9 (code bug): in a reachable position (Black just pushed a pawn
two squares to `(3,3)`; kings present; the last-move square occupied) the
perfectly legal en-passant capture `(3,4) → (2,3)` is validated, yet
`make_move` panics (`none`): `update_game_status` runs before `last_move` is
updated, and its legality scan calls `is_en_passant_move`, which unwraps the
board cell at the stale `last_move` target `(3,3)` — a square the en-passant
capture itself just emptied. -/
theorem claim_C9_en_passant_panics :
    epPanicBoard.length = 64 ∧
    readIdx epPanicBoard (7 * 8 + 4) = some (some ⟨PieceType.King, PieceColor.White⟩) ∧
    epPanicState.last_move = some ((1, 3), (3, 3)) ∧
    readIdx epPanicBoard (3 * 8 + 3) = some (some ⟨PieceType.Pawn, PieceColor.Black⟩) ∧
    GameState.is_valid_move epPanicState (3, 4) (2, 3) epPanicBoard = some true ∧
    GameState.make_move epPanicState (3, 4) (2, 3) epPanicBoard = none :=
  ⟨by decide, by decide, rfl, by decide, by decide, by decide⟩

/-- Witness for C10: on a board holding only a White rook (no king of either
color), the simulated move `(0,0) → (0,1)` reports `false`. -/
theorem claim_C10_witness :
    noKingBoard.length = 64 ∧
    readIdx noKingBoard (0 * 8 + 0) = some (some ⟨PieceType.Rook, PieceColor.White⟩) ∧
    GameState.would_be_in_check GameState.new (0, 0) (0, 1) noKingBoard = some false :=
  ⟨rfl, by decide,
    claim_C10_no_king_vacuously_safe GameState.new (0, 0) (0, 1) noKingBoard
      (Piece.mk PieceType.Rook PieceColor.White) rfl (by decide) (by decide) (by decide)
      (by decide)⟩

end ChessRust
